import Mathlib

/-
Verification of the schema-decoding core of `concordium-schema-decoder`
(file `src/concordium-schema-decoder/src/schema.rs`).

The development shallowly embeds the Rust code: byte streams are lists of
natural numbers (each in reality a byte value 0..255), fallible Rust code
returning `anyhow::Result` becomes `Except Err`, and `serde_json::Value`
objects (backed by `BTreeMap<String, Value>` with serde_json's default
feature set) become association lists kept sorted by key under a
lexicographic string order.

The in-memory schema types (`Type`, `FunctionV1`, `FunctionV2`,
`ContractV0`..`ContractV3`, `VersionedModuleSchema`) and the byte-level
decoder `from_bytes` come from the external crate
`concordium_contracts_common`, whose sources are not part of this
repository; they are modelled from the specification (sections 3 and
4.1-4.4), as noted on each such definition.
-/

namespace SchemaDecoder

/-! ## JSON values

`serde_json::Value`.  With serde_json's default features, `Value::Object`
is backed by `BTreeMap<String, Value>`, modelled here as an association
list sorted by key. -/

inductive Value where
  | null : Value
  | bool : Bool → Value
  | num : Int → Value
  | str : String → Value
  | arr : List Value → Value
  | obj : List (String × Value) → Value

/-! ## Key order

Rust's `BTreeMap<String, _>` orders keys by `Ord` on `String`, which is
byte-wise lexicographic order on the UTF-8 encoding; this coincides with
lexicographic order on Unicode scalar values, implemented here on the
character list underlying a Lean string. -/

def charListLt : List Char → List Char → Bool
  | [], [] => false
  | [], _ :: _ => true
  | _ :: _, [] => false
  | c :: cs, d :: ds =>
    if c.toNat < d.toNat then true
    else if d.toNat < c.toNat then false
    else charListLt cs ds

def keyLt (a b : String) : Bool := charListLt a.data b.data

/-- Insertion as in `BTreeMap::insert` on a key-sorted association list:
place the new entry at its ordered position, replacing an existing entry
with the same key. -/
def btreeInsert {α : Type} (k : String) (v : α) : List (String × α) → List (String × α)
  | [] => [(k, v)]
  | (k2, v2) :: rest =>
    if keyLt k k2 then (k, v) :: (k2, v2) :: rest
    else if k == k2 then (k, v) :: rest
    else (k2, v2) :: btreeInsert k v rest

/-- Lookup of the first entry with the given key. -/
def lookupKey {α : Type} (k : String) : List (String × α) → Option α
  | [] => none
  | (k2, v) :: rest => if k == k2 then some v else lookupKey k rest

/-- The keys of an association list, in order. -/
def keys {α : Type} (l : List (String × α)) : List String := l.map Prod.fst

/-- Keys strictly increasing in the lexicographic order: the invariant of
a `BTreeMap` rendered as an entry list. -/
def SortedKeys {α : Type} (l : List (String × α)) : Prop :=
  List.Pairwise (fun a b => keyLt a.1 b.1 = true) l

/-! ## The schema data model

Modelled from the spec: the types below live in the external crate
`concordium_contracts_common::schema` (not part of this repository).  The
variant list and arities of `Type` are however fixed by the exhaustive
`match` in the repository's `Serialize for SerializableType`
(schema.rs lines 21-53); payload shapes follow spec sections 3 and 4.4. -/

/-- Modelled from the spec: the length-size class selecting among
1/2/4-byte length encodings (section 6: byte 0 selects u8, 1 selects u16,
2 selects u32). -/
inductive SizeLength where
  | U8 : SizeLength
  | U16 : SizeLength
  | U32 : SizeLength
deriving DecidableEq

mutual

/-- Modelled from the spec (section 4.4): a struct or enum-variant field
descriptor — named fields, positional fields, or no fields. -/
inductive Fields where
  | Named : List (String × SchemaType) → Fields
  | Unnamed : List SchemaType → Fields
  | None : Fields

/-- The recursive type-descriptor grammar (`schema::Type` of the external
crate; variants and arities as matched exhaustively by the repository's
serializer, payloads modelled from spec section 3). -/
inductive SchemaType where
  | Unit : SchemaType
  | Bool : SchemaType
  | U8 : SchemaType
  | U16 : SchemaType
  | U32 : SchemaType
  | U64 : SchemaType
  | U128 : SchemaType
  | I8 : SchemaType
  | I16 : SchemaType
  | I32 : SchemaType
  | I64 : SchemaType
  | I128 : SchemaType
  | Amount : SchemaType
  | AccountAddress : SchemaType
  | ContractAddress : SchemaType
  | Timestamp : SchemaType
  | Duration : SchemaType
  | Pair : SchemaType → SchemaType → SchemaType
  | List : SizeLength → SchemaType → SchemaType
  | Set : SizeLength → SchemaType → SchemaType
  | Map : SizeLength → SchemaType → SchemaType → SchemaType
  | Array : Nat → SchemaType → SchemaType
  | Struct : Fields → SchemaType
  | Enum : List (String × Fields) → SchemaType
  | String : SizeLength → SchemaType
  | ContractName : SizeLength → SchemaType
  | ReceiveName : SizeLength → SchemaType
  | ULeb128 : Nat → SchemaType
  | ILeb128 : Nat → SchemaType
  | ByteList : SizeLength → SchemaType
  | ByteArray : Nat → SchemaType
  | TaggedEnum : List (Nat × (String × Fields)) → SchemaType

end

/-- Modelled from the spec (section 3): the V1 function-schema shape with
optional parameter and return-value types. -/
structure FunctionV1 where
  parameter : Option SchemaType
  return_value : Option SchemaType

/-- Modelled from the spec (section 3): the V2/V3 function-schema shape
with optional parameter, return-value and error types. -/
structure FunctionV2 where
  parameter : Option SchemaType
  return_value : Option SchemaType
  error : Option SchemaType

/-- Modelled from the spec (section 3): the V0 contract schema. -/
structure ContractV0 where
  init : Option SchemaType
  state : Option SchemaType
  receive : List (String × SchemaType)

/-- Modelled from the spec (section 3): the V1 contract schema. -/
structure ContractV1 where
  init : Option FunctionV1
  receive : List (String × FunctionV1)

/-- Modelled from the spec (section 3): the V2 contract schema. -/
structure ContractV2 where
  init : Option FunctionV2
  receive : List (String × FunctionV2)

/-- Modelled from the spec (section 3): the V3 contract schema, adding an
optional event schema. -/
structure ContractV3 where
  init : Option FunctionV2
  event : Option SchemaType
  receive : List (String × FunctionV2)

/-- Modelled from the spec (section 3): one generation's module body, a
mapping from contract name to contract schema. -/
structure ModuleV0 where
  contracts : List (String × ContractV0)

structure ModuleV1 where
  contracts : List (String × ContractV1)

structure ModuleV2 where
  contracts : List (String × ContractV2)

structure ModuleV3 where
  contracts : List (String × ContractV3)

/-- Modelled from the spec (section 3): the sum over schema generations. -/
inductive VersionedModuleSchema where
  | V0 : ModuleV0 → VersionedModuleSchema
  | V1 : ModuleV1 → VersionedModuleSchema
  | V2 : ModuleV2 → VersionedModuleSchema
  | V3 : ModuleV3 → VersionedModuleSchema

/-- The external generation hint (schema.rs lines 63-67). -/
inductive WasmVersion where
  | V0 : WasmVersion
  | V1 : WasmVersion
deriving DecidableEq

/-- The error taxonomy of spec section 7.  The repository itself carries
errors as `anyhow::Error`; the structured names below follow the spec. -/
inductive Err where
  | UnexpectedEndOfInput : Err
  | UnknownTypeTag : Nat → Nat → Err
  | InvalidPresenceFlag : Err
  | MissingVersionHint : Err
  | MalformedSchema : String → Err
  | InternalError : Err
deriving DecidableEq

/-! ## Byte-level decoding

Modelled from the spec: the primitive reader (section 2) and the
decoders of sections 4.1-4.4 live in the external crate
(`concordium_contracts_common::from_bytes` and the `Deserial` instances);
they are reconstructed here from the spec's words.  Where the spec leaves
a wire detail open it is fixed once and documented: multi-byte integers
are little-endian, length prefixes of maps, field lists and strings are
4-byte integers, the generation discriminant after the magic bytes is one
byte (0..3 selecting V0..V3), type tags are assigned in the order of the
spec's section 3 enumeration, and names are treated as ASCII (one byte
per character). -/

/-- Modelled from the spec: read one byte; fails with
`UnexpectedEndOfInput` past the end of the stream. -/
def readU8 (bytes : List Nat) (pos : Nat) : Except Err (Nat × Nat) :=
  match bytes[pos]? with
  | some b => .ok (b, pos + 1)
  | none => .error .UnexpectedEndOfInput

/-- Modelled from the spec: a 2-byte little-endian integer. -/
def readU16 (bytes : List Nat) (pos : Nat) : Except Err (Nat × Nat) := do
  let (b0, p) ← readU8 bytes pos
  let (b1, p) ← readU8 bytes p
  pure (b0 + 256 * b1, p)

/-- Modelled from the spec: a 4-byte little-endian integer. -/
def readU32 (bytes : List Nat) (pos : Nat) : Except Err (Nat × Nat) := do
  let (b0, p) ← readU8 bytes pos
  let (b1, p) ← readU8 bytes p
  let (b2, p) ← readU8 bytes p
  let (b3, p) ← readU8 bytes p
  pure (b0 + 256 * (b1 + 256 * (b2 + 256 * b3)), p)

/-- Modelled from the spec (section 6): a length-size-class byte, 0
selecting u8, 1 selecting u16, 2 selecting u32. -/
def decodeSizeLength (bytes : List Nat) (pos : Nat) : Except Err (SizeLength × Nat) := do
  let (b, p) ← readU8 bytes pos
  match b with
  | 0 => pure (.U8, p)
  | 1 => pure (.U16, p)
  | 2 => pure (.U32, p)
  | _ => .error (.MalformedSchema "invalid length-size class byte")

/-- Modelled from the spec: a length-prefixed UTF-8 name (ASCII assumed,
one byte per character). -/
def readString (bytes : List Nat) (pos : Nat) : Except Err (String × Nat) := do
  let (n, p) ← readU32 bytes pos
  if p + n ≤ bytes.length then
    pure (String.mk (((bytes.drop p).take n).map Char.ofNat), p + n)
  else .error .UnexpectedEndOfInput

/-- Modelled from the spec (section 6): a presence-flag byte, 0x00 marking
the field absent and any other value marking it present, followed by the
field itself when present. -/
def decodeOption {σ : Type} (f : List Nat → Nat → Except Err (σ × Nat))
    (bytes : List Nat) (pos : Nat) : Except Err (Option σ × Nat) := do
  let (flag, p) ← readU8 bytes pos
  if flag = 0 then pure (none, p)
  else do
    let (x, p2) ← f bytes p
    pure (some x, p2)

mutual

/-- Modelled from the spec (section 4.4): recursive-descent decoding of a
`Type` tree, driven by a leading tag byte.  The `fuel` argument bounds
the recursion depth; callers supply more fuel than any input stream can
consume, so exhaustion only occurs on malformed input. -/
def decodeType : Nat → List Nat → Nat → Except Err (SchemaType × Nat)
  | 0, _, _ => .error (.MalformedSchema "recursion limit exceeded")
  | fuel + 1, bytes, pos => do
    let (tag, p) ← readU8 bytes pos
    match tag with
    | 0 => pure (.Unit, p)
    | 1 => pure (.Bool, p)
    | 2 => pure (.U8, p)
    | 3 => pure (.U16, p)
    | 4 => pure (.U32, p)
    | 5 => pure (.U64, p)
    | 6 => pure (.U128, p)
    | 7 => pure (.I8, p)
    | 8 => pure (.I16, p)
    | 9 => pure (.I32, p)
    | 10 => pure (.I64, p)
    | 11 => pure (.I128, p)
    | 12 => pure (.Amount, p)
    | 13 => pure (.AccountAddress, p)
    | 14 => pure (.ContractAddress, p)
    | 15 => pure (.Timestamp, p)
    | 16 => pure (.Duration, p)
    | 17 => do
      let (a, p2) ← decodeType fuel bytes p
      let (b, p3) ← decodeType fuel bytes p2
      pure (.Pair a b, p3)
    | 18 => do
      let (sl, p2) ← decodeSizeLength bytes p
      let (t, p3) ← decodeType fuel bytes p2
      pure (.List sl t, p3)
    | 19 => do
      let (sl, p2) ← decodeSizeLength bytes p
      let (t, p3) ← decodeType fuel bytes p2
      pure (.Set sl t, p3)
    | 20 => do
      let (sl, p2) ← decodeSizeLength bytes p
      let (k, p3) ← decodeType fuel bytes p2
      let (v, p4) ← decodeType fuel bytes p3
      pure (.Map sl k v, p4)
    | 21 => do
      let (n, p2) ← readU32 bytes p
      let (t, p3) ← decodeType fuel bytes p2
      pure (.Array n t, p3)
    | 22 => do
      let (fs, p2) ← decodeFields fuel bytes p
      pure (.Struct fs, p2)
    | 23 => do
      let (n, p2) ← readU32 bytes p
      let (vs, p3) ← decodeEnumVariants fuel n bytes p2
      pure (.Enum vs, p3)
    | 24 => do
      let (sl, p2) ← decodeSizeLength bytes p
      pure (.String sl, p2)
    | 25 => do
      let (sl, p2) ← decodeSizeLength bytes p
      pure (.ContractName sl, p2)
    | 26 => do
      let (sl, p2) ← decodeSizeLength bytes p
      pure (.ReceiveName sl, p2)
    | 27 => do
      let (n, p2) ← readU8 bytes p
      pure (.ULeb128 n, p2)
    | 28 => do
      let (n, p2) ← readU8 bytes p
      pure (.ILeb128 n, p2)
    | 29 => do
      let (sl, p2) ← decodeSizeLength bytes p
      pure (.ByteList sl, p2)
    | 30 => do
      let (n, p2) ← readU32 bytes p
      pure (.ByteArray n, p2)
    | 31 => do
      let (n, p2) ← readU32 bytes p
      let (vs, p3) ← decodeTaggedVariants fuel n bytes p2
      pure (.TaggedEnum vs, p3)
    | t => .error (.UnknownTypeTag t pos)
termination_by structural fuel _ _ => fuel

/-- Modelled from the spec (section 4.4): a `Fields` descriptor selected
by an inner discriminant byte — 0 named, 1 unnamed, 2 none. -/
def decodeFields : Nat → List Nat → Nat → Except Err (Fields × Nat)
  | 0, _, _ => .error (.MalformedSchema "recursion limit exceeded")
  | fuel + 1, bytes, pos => do
    let (d, p) ← readU8 bytes pos
    match d with
    | 0 => do
      let (n, p2) ← readU32 bytes p
      let (fs, p3) ← decodeNamedFields fuel n bytes p2
      pure (.Named fs, p3)
    | 1 => do
      let (n, p2) ← readU32 bytes p
      let (ts, p3) ← decodeUnnamedFields fuel n bytes p2
      pure (.Unnamed ts, p3)
    | 2 => pure (.None, p)
    | _ => .error (.MalformedSchema "invalid fields discriminant byte")
termination_by structural fuel _ _ => fuel

/-- Modelled from the spec: a counted sequence of (name, type) pairs. -/
def decodeNamedFields : Nat → Nat → List Nat → Nat →
    Except Err (List (String × SchemaType) × Nat)
  | 0, _, _, _ => .error (.MalformedSchema "recursion limit exceeded")
  | _ + 1, 0, _, pos => pure ([], pos)
  | fuel + 1, count + 1, bytes, pos => do
    let (name, p) ← readString bytes pos
    let (t, p2) ← decodeType fuel bytes p
    let (rest, p3) ← decodeNamedFields fuel count bytes p2
    pure ((name, t) :: rest, p3)
termination_by structural fuel _ _ _ => fuel

/-- Modelled from the spec: a counted sequence of types. -/
def decodeUnnamedFields : Nat → Nat → List Nat → Nat →
    Except Err (List SchemaType × Nat)
  | 0, _, _, _ => .error (.MalformedSchema "recursion limit exceeded")
  | _ + 1, 0, _, pos => pure ([], pos)
  | fuel + 1, count + 1, bytes, pos => do
    let (t, p) ← decodeType fuel bytes pos
    let (rest, p2) ← decodeUnnamedFields fuel count bytes p
    pure (t :: rest, p2)
termination_by structural fuel _ _ _ => fuel

/-- Modelled from the spec (section 4.4): a counted sequence of
(variant name, fields) pairs of an `Enum`. -/
def decodeEnumVariants : Nat → Nat → List Nat → Nat →
    Except Err (List (String × Fields) × Nat)
  | 0, _, _, _ => .error (.MalformedSchema "recursion limit exceeded")
  | _ + 1, 0, _, pos => pure ([], pos)
  | fuel + 1, count + 1, bytes, pos => do
    let (name, p) ← readString bytes pos
    let (fs, p2) ← decodeFields fuel bytes p
    let (rest, p3) ← decodeEnumVariants fuel count bytes p2
    pure ((name, fs) :: rest, p3)
termination_by structural fuel _ _ _ => fuel

/-- Modelled from the spec (section 4.4): a counted sequence of
(explicit numeric tag, variant name, fields) triples of a `TaggedEnum`;
the tag is one byte. -/
def decodeTaggedVariants : Nat → Nat → List Nat → Nat →
    Except Err (List (Nat × (String × Fields)) × Nat)
  | 0, _, _, _ => .error (.MalformedSchema "recursion limit exceeded")
  | _ + 1, 0, _, pos => pure ([], pos)
  | fuel + 1, count + 1, bytes, pos => do
    let (tag, p) ← readU8 bytes pos
    let (name, p2) ← readString bytes p
    let (fs, p3) ← decodeFields fuel bytes p2
    let (rest, p4) ← decodeTaggedVariants fuel count bytes p3
    pure ((tag, (name, fs)) :: rest, p4)
termination_by structural fuel _ _ _ => fuel

end

/-- Modelled from the spec: top-level entry into type decoding, with a
conservative fuel budget (every decoding step consumes input, so a depth
of four times the stream length can never be reached by well-formed
recursion). -/
def decodeTypeTop (bytes : List Nat) (pos : Nat) : Except Err (SchemaType × Nat) :=
  decodeType (4 * bytes.length + 16) bytes pos

/-- Modelled from the spec (section 4.3): the V1 function-schema shape —
optional parameter, then optional return value, in that order. -/
def decodeFunctionV1 (bytes : List Nat) (pos : Nat) : Except Err (FunctionV1 × Nat) := do
  let (param, p) ← decodeOption decodeTypeTop bytes pos
  let (ret, p2) ← decodeOption decodeTypeTop bytes p
  pure (⟨param, ret⟩, p2)

/-- Modelled from the spec (section 4.3): the V2/V3 function-schema shape
— optional parameter, optional return value, optional error, in order. -/
def decodeFunctionV2 (bytes : List Nat) (pos : Nat) : Except Err (FunctionV2 × Nat) := do
  let (param, p) ← decodeOption decodeTypeTop bytes pos
  let (ret, p2) ← decodeOption decodeTypeTop bytes p
  let (err, p3) ← decodeOption decodeTypeTop bytes p2
  pure (⟨param, ret, err⟩, p3)

/-- Modelled from the spec: a counted sequence of (UTF-8 name, payload)
pairs collected into a `BTreeMap` by repeated insertion. -/
def decodeStringMapAux {σ : Type} (f : List Nat → Nat → Except Err (σ × Nat)) :
    Nat → List Nat → Nat → List (String × σ) →
    Except Err (List (String × σ) × Nat)
  | 0, _, pos, acc => pure (acc, pos)
  | count + 1, bytes, pos, acc => do
    let (name, p) ← readString bytes pos
    let (v, p2) ← f bytes p
    decodeStringMapAux f count bytes p2 (btreeInsert name v acc)

/-- Modelled from the spec: a length-prefixed map from names to decoded
payloads. -/
def decodeStringMap {σ : Type} (f : List Nat → Nat → Except Err (σ × Nat))
    (bytes : List Nat) (pos : Nat) : Except Err (List (String × σ) × Nat) := do
  let (n, p) ← readU32 bytes pos
  decodeStringMapAux f n bytes p []

/-- Modelled from the spec (sections 3, 4.2): the V0 contract layout —
optional init type, optional state type, receive-entrypoint map. -/
def decodeContractV0 (bytes : List Nat) (pos : Nat) : Except Err (ContractV0 × Nat) := do
  let (initOpt, p) ← decodeOption decodeTypeTop bytes pos
  let (stateOpt, p2) ← decodeOption decodeTypeTop bytes p
  let (recv, p3) ← decodeStringMap decodeTypeTop bytes p2
  pure (⟨initOpt, stateOpt, recv⟩, p3)

/-- Modelled from the spec (sections 3, 4.2): the V1 contract layout. -/
def decodeContractV1 (bytes : List Nat) (pos : Nat) : Except Err (ContractV1 × Nat) := do
  let (initOpt, p) ← decodeOption decodeFunctionV1 bytes pos
  let (recv, p2) ← decodeStringMap decodeFunctionV1 bytes p
  pure (⟨initOpt, recv⟩, p2)

/-- Modelled from the spec (sections 3, 4.2): the V2 contract layout. -/
def decodeContractV2 (bytes : List Nat) (pos : Nat) : Except Err (ContractV2 × Nat) := do
  let (initOpt, p) ← decodeOption decodeFunctionV2 bytes pos
  let (recv, p2) ← decodeStringMap decodeFunctionV2 bytes p
  pure (⟨initOpt, recv⟩, p2)

/-- Modelled from the spec (sections 3, 4.2): the V3 contract layout —
optional init, optional event type, receive-entrypoint map. -/
def decodeContractV3 (bytes : List Nat) (pos : Nat) : Except Err (ContractV3 × Nat) := do
  let (initOpt, p) ← decodeOption decodeFunctionV2 bytes pos
  let (eventOpt, p2) ← decodeOption decodeTypeTop bytes p
  let (recv, p3) ← decodeStringMap decodeFunctionV2 bytes p2
  pure (⟨initOpt, eventOpt, recv⟩, p3)

/-- Modelled from the spec (section 4.1): `from_bytes::<ModuleV0>` — the
whole stream as a legacy V0 module body (trailing bytes are not an error
at this layer). -/
def from_bytes_module_v0 (bytes : List Nat) : Except Err ModuleV0 := do
  let (contracts, _) ← decodeStringMap decodeContractV0 bytes 0
  pure ⟨contracts⟩

/-- Modelled from the spec (section 4.1): `from_bytes::<ModuleV1>`. -/
def from_bytes_module_v1 (bytes : List Nat) : Except Err ModuleV1 := do
  let (contracts, _) ← decodeStringMap decodeContractV1 bytes 0
  pure ⟨contracts⟩

/-- Modelled from the spec (section 4.1):
`from_bytes::<VersionedModuleSchema>` — the two magic bytes, a one-byte
generation discriminant, then that generation's module body; an
unrecognized generation tag fails with `MalformedSchema` (section 8). -/
def from_bytes_versioned (bytes : List Nat) : Except Err VersionedModuleSchema := do
  let (m0, p) ← readU8 bytes 0
  let (m1, p2) ← readU8 bytes p
  if m0 = 0xff ∧ m1 = 0xff then do
    let (tag, p3) ← readU8 bytes p2
    match tag with
    | 0 => do
      let (contracts, _) ← decodeStringMap decodeContractV0 bytes p3
      pure (.V0 ⟨contracts⟩)
    | 1 => do
      let (contracts, _) ← decodeStringMap decodeContractV1 bytes p3
      pure (.V1 ⟨contracts⟩)
    | 2 => do
      let (contracts, _) ← decodeStringMap decodeContractV2 bytes p3
      pure (.V2 ⟨contracts⟩)
    | 3 => do
      let (contracts, _) ← decodeStringMap decodeContractV3 bytes p3
      pure (.V3 ⟨contracts⟩)
    | _ => .error (.MalformedSchema "unrecognized schema generation tag")
  else .error (.MalformedSchema "missing versioned schema magic bytes")

/-! ## The repository's code (schema.rs)

Everything below is translated from
`src/concordium-schema-decoder/src/schema.rs`. -/

/-- schema.rs line 61: versioned schemas always start with two fully set
bytes. -/
def VERSIONED_SCHEMA_MAGIC_HASH : List Nat := [0xff, 0xff]

/-- The slice method `starts_with`: does the byte stream open with the
given needle? -/
def starts_with : List Nat → List Nat → Bool
  | _, [] => true
  | [], _ :: _ => false
  | b :: bs, n :: ns => b == n && starts_with bs ns

/-- schema.rs lines 69-83: `parse_schema`.  A magic-prefixed stream is
decoded as a versioned schema; otherwise the stream is legacy and the
generation hint selects a V0 or V1 module body, failing when absent. -/
def parse_schema (wasm_version : Option WasmVersion) (bytes : List Nat) :
    Except Err VersionedModuleSchema :=
  if starts_with bytes VERSIONED_SCHEMA_MAGIC_HASH then
    from_bytes_versioned bytes
  else
    match wasm_version with
    | some .V0 => Except.map VersionedModuleSchema.V0 (from_bytes_module_v0 bytes)
    | some .V1 => Except.map VersionedModuleSchema.V1 (from_bytes_module_v1 bytes)
    | none => .error .MissingVersionHint

/-- schema.rs lines 16-56: the `Serialize` impl of the `SerializableType`
newtype around `Type`.  Every variant is serialized with
`serializer.serialize_str`, so the produced JSON value is always a plain
string; composite variants emit a placeholder ending in three dots (the
impl is marked with a TODO to serialize into an object carrying a kind
discriminant plus parameters instead). -/
def serialize_SerializableType : SchemaType → Value
  | .Unit => .str "unit"
  | .Bool => .str "bool"
  | .U8 => .str "u8"
  | .U16 => .str "u16"
  | .U32 => .str "u32"
  | .U64 => .str "u64"
  | .U128 => .str "u128"
  | .I8 => .str "i8"
  | .I16 => .str "i16"
  | .I32 => .str "i32"
  | .I64 => .str "i64"
  | .I128 => .str "i128"
  | .Amount => .str "amount"
  | .AccountAddress => .str "account_address"
  | .ContractAddress => .str "contract_address"
  | .Timestamp => .str "timestamp"
  | .Duration => .str "duration"
  | .Pair _ _ => .str "pair..."
  | .List _ _ => .str "list..."
  | .Set _ _ => .str "set..."
  | .Map _ _ _ => .str "map..."
  | .Array _ _ => .str "array..."
  | .Struct _ => .str "struct..."
  | .Enum _ => .str "enum..."
  | .String _ => .str "string..."
  | .ContractName _ => .str "contract_name..."
  | .ReceiveName _ => .str "receive_name..."
  | .ULeb128 _ => .str "uleb128..."
  | .ILeb128 _ => .str "ileb128..."
  | .ByteList _ => .str "byte_list..."
  | .ByteArray _ => .str "byte_array..."
  | .TaggedEnum _ => .str "tagged_enum..."

/-- schema.rs lines 189-192: `type_to_json` runs `serde_json::to_value`
on the wrapped type; with the `Serialize` impl above this always
produces the string value (string serialization cannot fail, so the
error-context branch never fires). -/
def type_to_json (t : SchemaType) : Except Err Value :=
  .ok (serialize_SerializableType t)

/-- The iteration underlying schema.rs lines 103-108: apply `f` to each
value in map-iteration order, short-circuiting on the first error, and
collect the survivors into a fresh `BTreeMap` by repeated insertion
(`collect` on a `Result` of a `BTreeMap`). -/
def try_map_values_aux {V W : Type} (f : V → Except Err W) :
    List (String × V) → List (String × W) → Except Err (List (String × W))
  | [], acc => .ok acc
  | (k, v) :: rest, acc => do
    let w ← f v
    try_map_values_aux f rest (btreeInsert k w acc)

/-- schema.rs lines 103-108: `try_map_values`. -/
def try_map_values {V W : Type} (m : List (String × V)) (f : V → Except Err W) :
    Except Err (List (String × W)) :=
  try_map_values_aux f m []

/-- The entrypoint loop shared by schema.rs lines 127-139, 172-184,
228-240 and 260-272: an empty `entrypoints` object is filled by indexed
assignment (`BTreeMap` insertion) per receive entry, in iteration
order. -/
def insertEntrypoints {σ : Type} (f : σ → Except Err Value)
    (receive : List (String × σ)) : Except Err (List (String × Value)) :=
  try_map_values_aux f receive []

/-- schema.rs lines 112-142: `schema_to_json_v0`. -/
def schema_to_json_v0 (contract_schema : ContractV0) : Except Err Value := do
  let schema_json : List (String × Value) := []
  let schema_json ← match contract_schema.init with
    | some init_schema => do
      pure (btreeInsert "init" (← type_to_json init_schema) schema_json)
    | none => pure schema_json
  let schema_json ← match contract_schema.state with
    | some state_schema => do
      pure (btreeInsert "state" (← type_to_json state_schema) schema_json)
    | none => pure schema_json
  let schema_json ←
    if contract_schema.receive.isEmpty then pure schema_json
    else do
      let entrypoints ← insertEntrypoints type_to_json contract_schema.receive
      pure (btreeInsert "entrypoints" (Value.obj entrypoints) schema_json)
  pure (Value.obj schema_json)

/-- schema.rs lines 144-158: `function_v1_schema`. -/
def function_v1_schema (schema : FunctionV1) : Except Err Value := do
  let function_object : List (String × Value) := []
  let function_object ← match schema.parameter with
    | some parameter_schema => do
      pure (btreeInsert "parameter" (← type_to_json parameter_schema) function_object)
    | none => pure function_object
  let function_object ← match schema.return_value with
    | some return_value_schema => do
      pure (btreeInsert "returnValue" (← type_to_json return_value_schema) function_object)
    | none => pure function_object
  pure (Value.obj function_object)

/-- schema.rs lines 162-187: `schema_to_json_v1`. -/
def schema_to_json_v1 (contract_schema : ContractV1) : Except Err Value := do
  let schema_json : List (String × Value) := []
  let schema_json ← match contract_schema.init with
    | some init_schema => do
      pure (btreeInsert "init" (← function_v1_schema init_schema) schema_json)
    | none => pure schema_json
  let schema_json ←
    if contract_schema.receive.isEmpty then pure schema_json
    else do
      let entrypoints ← insertEntrypoints function_v1_schema contract_schema.receive
      pure (btreeInsert "entrypoints" (Value.obj entrypoints) schema_json)
  pure (Value.obj schema_json)

/-- schema.rs lines 195-214: `function_v2_schema`. -/
def function_v2_schema (schema : FunctionV2) : Except Err Value := do
  let function_object : List (String × Value) := []
  let function_object ← match schema.parameter with
    | some parameter_schema => do
      pure (btreeInsert "parameter" (← type_to_json parameter_schema) function_object)
    | none => pure function_object
  let function_object ← match schema.return_value with
    | some return_value_schema => do
      pure (btreeInsert "returnValue" (← type_to_json return_value_schema) function_object)
    | none => pure function_object
  let function_object ← match schema.error with
    | some error_schema => do
      pure (btreeInsert "error" (← type_to_json error_schema) function_object)
    | none => pure function_object
  pure (Value.obj function_object)

/-- schema.rs lines 218-243: `schema_to_json_v2`. -/
def schema_to_json_v2 (contract_schema : ContractV2) : Except Err Value := do
  let schema_json : List (String × Value) := []
  let schema_json ← match contract_schema.init with
    | some init_schema => do
      pure (btreeInsert "init" (← function_v2_schema init_schema) schema_json)
    | none => pure schema_json
  let schema_json ←
    if contract_schema.receive.isEmpty then pure schema_json
    else do
      let entrypoints ← insertEntrypoints function_v2_schema contract_schema.receive
      pure (btreeInsert "entrypoints" (Value.obj entrypoints) schema_json)
  pure (Value.obj schema_json)

/-- schema.rs lines 245-275: `schema_to_json_v3`. -/
def schema_to_json_v3 (contract_schema : ContractV3) : Except Err Value := do
  let schema_json : List (String × Value) := []
  let schema_json ← match contract_schema.init with
    | some init_schema => do
      pure (btreeInsert "init" (← function_v2_schema init_schema) schema_json)
    | none => pure schema_json
  let schema_json ← match contract_schema.event with
    | some event_schema => do
      pure (btreeInsert "event" (← type_to_json event_schema) schema_json)
    | none => pure schema_json
  let schema_json ←
    if contract_schema.receive.isEmpty then pure schema_json
    else do
      let entrypoints ← insertEntrypoints function_v2_schema contract_schema.receive
      pure (btreeInsert "entrypoints" (Value.obj entrypoints) schema_json)
  pure (Value.obj schema_json)

/-- schema.rs lines 85-101: `schema_to_json` — project every contract of
the module per its generation and render the resulting `BTreeMap` as a
JSON object (`serde_json::to_value` of a map of already-built values
lists its entries in map order and cannot fail). -/
def schema_to_json (schema : VersionedModuleSchema) : Except Err Value := do
  let map ← match schema with
    | .V0 module_schema => try_map_values module_schema.contracts schema_to_json_v0
    | .V1 module_schema => try_map_values module_schema.contracts schema_to_json_v1
    | .V2 module_schema => try_map_values module_schema.contracts schema_to_json_v2
    | .V3 module_schema => try_map_values module_schema.contracts schema_to_json_v3
  pure (Value.obj map)

/-! ## Order facts -/

theorem charListLt_trans {a b c : List Char} (hab : charListLt a b = true)
    (hbc : charListLt b c = true) : charListLt a c = true := by
  induction a generalizing b c with
  | nil =>
    cases b with
    | nil => simp [charListLt] at hab
    | cons y ys =>
      cases c with
      | nil => simp [charListLt] at hbc
      | cons z zs => simp [charListLt]
  | cons x xs ih =>
    cases b with
    | nil => simp [charListLt] at hab
    | cons y ys =>
      cases c with
      | nil => simp [charListLt] at hbc
      | cons z zs =>
        simp only [charListLt] at hab hbc ⊢
        split_ifs at hab hbc ⊢ <;>
          first
          | rfl
          | exact Bool.noConfusion hab
          | exact Bool.noConfusion hbc
          | exact ih hab hbc
          | (exfalso; omega)

theorem charListLt_eq_of_not {a b : List Char} (hab : charListLt a b = false)
    (hba : charListLt b a = false) : a = b := by
  induction a generalizing b with
  | nil =>
    cases b with
    | nil => rfl
    | cons y ys => simp [charListLt] at hab
  | cons x xs ih =>
    cases b with
    | nil => simp [charListLt] at hba
    | cons y ys =>
      simp only [charListLt] at hab hba
      split_ifs at hab hba <;>
        first
        | exact Bool.noConfusion hab
        | exact Bool.noConfusion hba
        | (exfalso; omega)
        | exact congrArg₂ List.cons
            (Char.ext (UInt32.ext (show x.toNat = y.toNat by omega))) (ih hab hba)

theorem keyLt_trans {a b c : String} (hab : keyLt a b = true)
    (hbc : keyLt b c = true) : keyLt a c = true :=
  charListLt_trans hab hbc

theorem keyLt_eq_of_not {a b : String} (hab : keyLt a b = false)
    (hba : keyLt b a = false) : a = b := by
  cases a with
  | mk da =>
    cases b with
    | mk db => exact congrArg String.mk (charListLt_eq_of_not hab hba)

/-- Totality: two keys that are unequal are strictly comparable. -/
theorem keyLt_of_not_of_ne {a b : String} (hab : keyLt a b = false)
    (hne : a ≠ b) : keyLt b a = true := by
  cases hba : keyLt b a with
  | true => rfl
  | false => exact absurd (keyLt_eq_of_not hab hba) hne

/-! ## Insertion lemmas -/

theorem mem_btreeInsert {α : Type} {k : String} {v : α} :
    ∀ {l : List (String × α)} {p : String × α},
      p ∈ btreeInsert k v l → p = (k, v) ∨ p ∈ l := by
  intro l
  induction l with
  | nil => intro p hp; simp [btreeInsert] at hp; exact Or.inl hp
  | cons hd tl ih =>
    intro p hp
    obtain ⟨k2, v2⟩ := hd
    simp only [btreeInsert] at hp
    split_ifs at hp with h1 h2
    · rcases List.mem_cons.mp hp with h | h
      · exact Or.inl h
      · exact Or.inr h
    · rcases List.mem_cons.mp hp with h | h
      · exact Or.inl h
      · exact Or.inr (List.mem_cons_of_mem _ h)
    · rcases List.mem_cons.mp hp with h | h
      · exact Or.inr (h ▸ List.mem_cons_self _ _)
      · rcases ih h with h3 | h3
        · exact Or.inl h3
        · exact Or.inr (List.mem_cons_of_mem _ h3)

theorem sortedKeys_btreeInsert {α : Type} {k : String} {v : α}
    {l : List (String × α)} (hl : SortedKeys l) :
    SortedKeys (btreeInsert k v l) := by
  induction l with
  | nil => simp [btreeInsert, SortedKeys]
  | cons hd tl ih =>
    obtain ⟨k2, v2⟩ := hd
    rw [SortedKeys, List.pairwise_cons] at hl
    obtain ⟨hhd, htl⟩ := hl
    simp only [btreeInsert]
    split_ifs with h1 h2
    · rw [SortedKeys, List.pairwise_cons]
      refine ⟨?_, List.Pairwise.cons hhd htl⟩
      intro b hb
      rcases List.mem_cons.mp hb with hb | hb
      · simpa [hb] using h1
      · exact keyLt_trans h1 (hhd b hb)
    · have hk : k = k2 := by simpa using h2
      rw [SortedKeys, List.pairwise_cons]
      exact ⟨fun b hb => hk ▸ hhd b hb, htl⟩
    · rw [SortedKeys, List.pairwise_cons]
      refine ⟨?_, ih htl⟩
      intro b hb
      rcases mem_btreeInsert hb with h | h
      · have hne : k ≠ k2 := by simpa using h2
        have := keyLt_of_not_of_ne (by simpa using h1) hne
        simpa [h] using this
      · exact hhd b h

/-- Every JSON object reachable inside the value has sorted keys: the
invariant `serde_json::Value` maintains with `BTreeMap`-backed objects. -/
inductive ValueSorted : Value → Prop where
  | null : ValueSorted .null
  | bool : ∀ b, ValueSorted (.bool b)
  | num : ∀ n, ValueSorted (.num n)
  | str : ∀ s, ValueSorted (.str s)
  | arr : ∀ l, (∀ v ∈ l, ValueSorted v) → ValueSorted (.arr l)
  | obj : ∀ l, SortedKeys l → (∀ p ∈ l, ValueSorted p.2) → ValueSorted (.obj l)

theorem valueSorted_obj_insert {k : String} {v : Value}
    {l : List (String × Value)} (hl : ValueSorted (.obj l))
    (hv : ValueSorted v) : ValueSorted (.obj (btreeInsert k v l)) := by
  cases hl with
  | obj _ hs hvals =>
    refine .obj _ (sortedKeys_btreeInsert hs) ?_
    intro p hp
    rcases mem_btreeInsert hp with h | h
    · rw [h]; exact hv
    · exact hvals p h

theorem valueSorted_obj_nil : ValueSorted (.obj []) :=
  .obj [] (by simp [SortedKeys]) (by simp)

/-! ## Lookup lemmas -/

theorem lookupKey_btreeInsert_self {α : Type} {k : String} {v : α} :
    ∀ {l : List (String × α)}, lookupKey k (btreeInsert k v l) = some v := by
  intro l
  induction l with
  | nil => simp [btreeInsert, lookupKey]
  | cons hd tl ih =>
    obtain ⟨k2, v2⟩ := hd
    simp only [btreeInsert]
    split_ifs with h1 h2
    · simp [lookupKey]
    · simp [lookupKey]
    · have hne : (k == k2) = false := by simpa using h2
      simp [lookupKey, hne, ih]

theorem lookupKey_btreeInsert_ne {α : Type} {k k2 : String} {v : α}
    (hne : k ≠ k2) :
    ∀ {l : List (String × α)},
      lookupKey k (btreeInsert k2 v l) = lookupKey k l := by
  intro l
  have hb : (k == k2) = false := by simpa using hne
  induction l with
  | nil => simp [btreeInsert, lookupKey, hb]
  | cons hd tl ih =>
    obtain ⟨k3, v3⟩ := hd
    simp only [btreeInsert]
    split_ifs with h1 h2
    · simp [lookupKey, hb]
    · have hk : k2 = k3 := by simpa using h2
      subst hk
      simp [lookupKey, hb]
    · cases hk3 : (k == k3) with
      | true => simp [lookupKey, hk3]
      | false => simp [lookupKey, hk3, ih]

/-! ## Characterizing the insert folds

`try_map_values_aux` (and with it `try_map_values` and
`insertEntrypoints`) is a fold of `BTreeMap` insertions over an entry
list with a fallible value transformer.  When the transformer is total
the fold equals the pure fold `insertAllPure`, about which the sortedness
and membership facts are proved. -/

theorem except_bind_ok {α β : Type} (a : α) (f : α → Except Err β) :
    (Except.ok a >>= f) = f a := rfl

theorem except_pure_eq {α : Type} (a : α) :
    (pure a : Except Err α) = Except.ok a := rfl

theorem except_bind_error {α β : Type} (e : Err) (f : α → Except Err β) :
    ((Except.error e : Except Err α) >>= f) = Except.error e := rfl

def insertAllPure {V W : Type} (g : V → W) :
    List (String × V) → List (String × W) → List (String × W)
  | [], acc => acc
  | (k, v) :: rest, acc => insertAllPure g rest (btreeInsert k (g v) acc)

theorem try_map_values_aux_pure {V W : Type} {f : V → Except Err W}
    (g : V → W) (hf : ∀ v, f v = .ok (g v)) :
    ∀ (l : List (String × V)) (acc : List (String × W)),
      try_map_values_aux f l acc = .ok (insertAllPure g l acc) := by
  intro l
  induction l with
  | nil => intro acc; rfl
  | cons hd tl ih =>
    intro acc
    obtain ⟨k, v⟩ := hd
    simp only [try_map_values_aux, insertAllPure, hf v, except_bind_ok]
    exact ih _

theorem sortedKeys_insertAllPure {V W : Type} {g : V → W} :
    ∀ {l : List (String × V)} {acc : List (String × W)},
      SortedKeys acc → SortedKeys (insertAllPure g l acc) := by
  intro l
  induction l with
  | nil => intro acc h; exact h
  | cons hd tl ih =>
    intro acc h
    obtain ⟨k, v⟩ := hd
    exact ih (sortedKeys_btreeInsert h)

theorem mem_insertAllPure {V W : Type} {g : V → W} :
    ∀ {l : List (String × V)} {acc : List (String × W)} {p : String × W},
      p ∈ insertAllPure g l acc →
      (∃ kv ∈ l, p = (kv.1, g kv.2)) ∨ p ∈ acc := by
  intro l
  induction l with
  | nil => intro acc p hp; exact Or.inr hp
  | cons hd tl ih =>
    intro acc p hp
    obtain ⟨k, v⟩ := hd
    rcases ih hp with h | h
    · obtain ⟨kv, hkv, hpe⟩ := h
      exact Or.inl ⟨kv, List.mem_cons_of_mem _ hkv, hpe⟩
    · rcases mem_btreeInsert h with h2 | h2
      · exact Or.inl ⟨(k, v), List.mem_cons_self _ _, h2⟩
      · exact Or.inr h2

theorem valueSorted_insertAllPure {V : Type} {g : V → Value}
    (hg : ∀ v, ValueSorted (g v)) {l : List (String × V)} :
    ValueSorted (.obj (insertAllPure g l [])) := by
  refine .obj _ (sortedKeys_insertAllPure (by simp [SortedKeys])) ?_
  intro p hp
  rcases mem_insertAllPure hp with h | h
  · obtain ⟨kv, _, hpe⟩ := h
    rw [hpe]
    exact hg kv.2
  · simp at h

/-! ## Error propagation through the fold -/

theorem try_map_values_aux_error {V W : Type} {f : V → Except Err W} :
    ∀ {l : List (String × V)} {acc : List (String × W)}
      {k : String} {v : V} {e : Err},
      (k, v) ∈ l → f v = .error e →
      ∃ e2, try_map_values_aux f l acc = .error e2 := by
  intro l
  induction l with
  | nil => intro acc k v e h _; simp at h
  | cons hd tl ih =>
    intro acc k v e hmem hfv
    obtain ⟨k2, v2⟩ := hd
    rcases List.mem_cons.mp hmem with h | h
    · obtain ⟨hk, hv⟩ := Prod.mk.injEq .. ▸ h
      subst hv
      refine ⟨e, ?_⟩
      simp [try_map_values_aux, hfv, except_bind_error]
    · cases hfv2 : f v2 with
      | error e2 =>
        refine ⟨e2, ?_⟩
        simp [try_map_values_aux, hfv2, except_bind_error]
      | ok w2 =>
        have h2 := @ih (btreeInsert k2 w2 acc) k v e h hfv
        obtain ⟨e2, he2⟩ := h2
        refine ⟨e2, ?_⟩
        simpa [try_map_values_aux, hfv2, except_bind_ok] using he2

theorem try_map_values_aux_ok {V W : Type} {f : V → Except Err W} :
    ∀ {l : List (String × V)} {acc out : List (String × W)},
      try_map_values_aux f l acc = .ok out →
      ∀ k v, (k, v) ∈ l → ∃ w, f v = .ok w := by
  intro l
  induction l with
  | nil => intro acc out _ k v h; simp at h
  | cons hd tl ih =>
    intro acc out hok k v hmem
    obtain ⟨k2, v2⟩ := hd
    cases hfv2 : f v2 with
    | error e2 =>
      rw [try_map_values_aux] at hok
      simp [hfv2, except_bind_error] at hok
    | ok w2 =>
      rcases List.mem_cons.mp hmem with h | h
      · obtain ⟨hk, hv⟩ := Prod.mk.injEq .. ▸ h
        subst hv
        exact ⟨w2, hfv2⟩
      · rw [try_map_values_aux] at hok
        simp only [hfv2, Except.bind] at hok
        exact ih hok k v h

/-! ## Pure characterizations of the projectors

The projectors of schema.rs can only fail where `type_to_json` fails,
and `type_to_json` is total; each projector therefore equals `.ok` of an
explicit pure insert chain, proved below and used by the claim proofs. -/

def functionV1Obj (s : FunctionV1) : List (String × Value) :=
  let l1 : List (String × Value) :=
    match s.parameter with
    | some t => btreeInsert "parameter" (serialize_SerializableType t) []
    | none => []
  match s.return_value with
  | some t => btreeInsert "returnValue" (serialize_SerializableType t) l1
  | none => l1

theorem function_v1_schema_eq (s : FunctionV1) :
    function_v1_schema s = .ok (.obj (functionV1Obj s)) := by
  obtain ⟨p, r⟩ := s
  cases p <;> cases r <;> rfl

def functionV2Obj (s : FunctionV2) : List (String × Value) :=
  let l1 : List (String × Value) :=
    match s.parameter with
    | some t => btreeInsert "parameter" (serialize_SerializableType t) []
    | none => []
  let l2 : List (String × Value) :=
    match s.return_value with
    | some t => btreeInsert "returnValue" (serialize_SerializableType t) l1
    | none => l1
  match s.error with
  | some t => btreeInsert "error" (serialize_SerializableType t) l2
  | none => l2

theorem function_v2_schema_eq (s : FunctionV2) :
    function_v2_schema s = .ok (.obj (functionV2Obj s)) := by
  obtain ⟨p, r, e⟩ := s
  cases p <;> cases r <;> cases e <;> rfl

def contractV0Obj (c : ContractV0) : List (String × Value) :=
  let l1 : List (String × Value) :=
    match c.init with
    | some t => btreeInsert "init" (serialize_SerializableType t) []
    | none => []
  let l2 : List (String × Value) :=
    match c.state with
    | some t => btreeInsert "state" (serialize_SerializableType t) l1
    | none => l1
  if c.receive.isEmpty then l2
  else btreeInsert "entrypoints"
    (.obj (insertAllPure serialize_SerializableType c.receive [])) l2

theorem schema_to_json_v0_eq (c : ContractV0) :
    schema_to_json_v0 c = .ok (.obj (contractV0Obj c)) := by
  obtain ⟨i, s, r⟩ := c
  have hent : insertEntrypoints type_to_json r =
      .ok (insertAllPure serialize_SerializableType r []) :=
    try_map_values_aux_pure _ (fun _ => rfl) r []
  cases i <;> cases s <;> cases hr : r.isEmpty <;>
    simp [schema_to_json_v0, contractV0Obj, hr, hent, except_bind_ok,
      type_to_json, except_pure_eq]

def contractV1Obj (c : ContractV1) : List (String × Value) :=
  let l1 : List (String × Value) :=
    match c.init with
    | some f => btreeInsert "init" (.obj (functionV1Obj f)) []
    | none => []
  if c.receive.isEmpty then l1
  else btreeInsert "entrypoints"
    (.obj (insertAllPure (fun f => Value.obj (functionV1Obj f)) c.receive [])) l1

theorem schema_to_json_v1_eq (c : ContractV1) :
    schema_to_json_v1 c = .ok (.obj (contractV1Obj c)) := by
  obtain ⟨i, r⟩ := c
  have hent : insertEntrypoints function_v1_schema r =
      .ok (insertAllPure (fun f => Value.obj (functionV1Obj f)) r []) :=
    try_map_values_aux_pure _ function_v1_schema_eq r []
  cases i <;> cases hr : r.isEmpty <;>
    simp [schema_to_json_v1, contractV1Obj, hr, hent, except_bind_ok,
      function_v1_schema_eq, except_pure_eq]

def contractV2Obj (c : ContractV2) : List (String × Value) :=
  let l1 : List (String × Value) :=
    match c.init with
    | some f => btreeInsert "init" (.obj (functionV2Obj f)) []
    | none => []
  if c.receive.isEmpty then l1
  else btreeInsert "entrypoints"
    (.obj (insertAllPure (fun f => Value.obj (functionV2Obj f)) c.receive [])) l1

theorem schema_to_json_v2_eq (c : ContractV2) :
    schema_to_json_v2 c = .ok (.obj (contractV2Obj c)) := by
  obtain ⟨i, r⟩ := c
  have hent : insertEntrypoints function_v2_schema r =
      .ok (insertAllPure (fun f => Value.obj (functionV2Obj f)) r []) :=
    try_map_values_aux_pure _ function_v2_schema_eq r []
  cases i <;> cases hr : r.isEmpty <;>
    simp [schema_to_json_v2, contractV2Obj, hr, hent, except_bind_ok,
      function_v2_schema_eq, except_pure_eq]

def contractV3Obj (c : ContractV3) : List (String × Value) :=
  let l1 : List (String × Value) :=
    match c.init with
    | some f => btreeInsert "init" (.obj (functionV2Obj f)) []
    | none => []
  let l2 : List (String × Value) :=
    match c.event with
    | some t => btreeInsert "event" (serialize_SerializableType t) l1
    | none => l1
  if c.receive.isEmpty then l2
  else btreeInsert "entrypoints"
    (.obj (insertAllPure (fun f => Value.obj (functionV2Obj f)) c.receive [])) l2

theorem schema_to_json_v3_eq (c : ContractV3) :
    schema_to_json_v3 c = .ok (.obj (contractV3Obj c)) := by
  obtain ⟨i, ev, r⟩ := c
  have hent : insertEntrypoints function_v2_schema r =
      .ok (insertAllPure (fun f => Value.obj (functionV2Obj f)) r []) :=
    try_map_values_aux_pure _ function_v2_schema_eq r []
  cases i <;> cases ev <;> cases hr : r.isEmpty <;>
    simp [schema_to_json_v3, contractV3Obj, hr, hent, except_bind_ok,
      function_v2_schema_eq, type_to_json, except_pure_eq]

theorem schema_to_json_V0_eq (m : ModuleV0) :
    schema_to_json (.V0 m) =
      .ok (.obj (insertAllPure (fun c => Value.obj (contractV0Obj c))
        m.contracts [])) := by
  have h := try_map_values_aux_pure (fun c => Value.obj (contractV0Obj c))
    schema_to_json_v0_eq m.contracts []
  simp [schema_to_json, try_map_values, h, except_bind_ok]

theorem schema_to_json_V1_eq (m : ModuleV1) :
    schema_to_json (.V1 m) =
      .ok (.obj (insertAllPure (fun c => Value.obj (contractV1Obj c))
        m.contracts [])) := by
  have h := try_map_values_aux_pure (fun c => Value.obj (contractV1Obj c))
    schema_to_json_v1_eq m.contracts []
  simp [schema_to_json, try_map_values, h, except_bind_ok]

theorem schema_to_json_V2_eq (m : ModuleV2) :
    schema_to_json (.V2 m) =
      .ok (.obj (insertAllPure (fun c => Value.obj (contractV2Obj c))
        m.contracts [])) := by
  have h := try_map_values_aux_pure (fun c => Value.obj (contractV2Obj c))
    schema_to_json_v2_eq m.contracts []
  simp [schema_to_json, try_map_values, h, except_bind_ok]

theorem schema_to_json_V3_eq (m : ModuleV3) :
    schema_to_json (.V3 m) =
      .ok (.obj (insertAllPure (fun c => Value.obj (contractV3Obj c))
        m.contracts [])) := by
  have h := try_map_values_aux_pure (fun c => Value.obj (contractV3Obj c))
    schema_to_json_v3_eq m.contracts []
  simp [schema_to_json, try_map_values, h, except_bind_ok]

/-! ## Sortedness of everything the projectors build -/

theorem valueSorted_serialize (t : SchemaType) :
    ValueSorted (serialize_SerializableType t) := by
  cases t <;> exact .str _

theorem valueSorted_functionV1Obj (s : FunctionV1) :
    ValueSorted (.obj (functionV1Obj s)) := by
  obtain ⟨p, r⟩ := s
  cases p <;> cases r <;>
    simp only [functionV1Obj] <;>
    (repeat' apply valueSorted_obj_insert) <;>
    first
    | exact valueSorted_obj_nil
    | exact valueSorted_serialize _

theorem valueSorted_functionV2Obj (s : FunctionV2) :
    ValueSorted (.obj (functionV2Obj s)) := by
  obtain ⟨p, r, e⟩ := s
  cases p <;> cases r <;> cases e <;>
    simp only [functionV2Obj] <;>
    (repeat' apply valueSorted_obj_insert) <;>
    first
    | exact valueSorted_obj_nil
    | exact valueSorted_serialize _

theorem valueSorted_contractV0Obj (c : ContractV0) :
    ValueSorted (.obj (contractV0Obj c)) := by
  obtain ⟨i, s, r⟩ := c
  have hent : ValueSorted (.obj (insertAllPure serialize_SerializableType r [])) :=
    valueSorted_insertAllPure valueSorted_serialize
  cases i <;> cases s <;> cases hr : r.isEmpty <;>
    simp only [contractV0Obj, hr, if_true, Bool.false_eq_true, if_false] <;>
    (repeat' apply valueSorted_obj_insert) <;>
    first
    | exact valueSorted_obj_nil
    | exact valueSorted_serialize _
    | exact hent

theorem valueSorted_contractV1Obj (c : ContractV1) :
    ValueSorted (.obj (contractV1Obj c)) := by
  obtain ⟨i, r⟩ := c
  have hent : ValueSorted
      (.obj (insertAllPure (fun f => Value.obj (functionV1Obj f)) r [])) :=
    valueSorted_insertAllPure (fun f => valueSorted_functionV1Obj f)
  cases i <;> cases hr : r.isEmpty <;>
    simp only [contractV1Obj, hr, if_true, Bool.false_eq_true, if_false] <;>
    (repeat' apply valueSorted_obj_insert) <;>
    first
    | exact valueSorted_obj_nil
    | exact valueSorted_functionV1Obj _
    | exact hent

theorem valueSorted_contractV2Obj (c : ContractV2) :
    ValueSorted (.obj (contractV2Obj c)) := by
  obtain ⟨i, r⟩ := c
  have hent : ValueSorted
      (.obj (insertAllPure (fun f => Value.obj (functionV2Obj f)) r [])) :=
    valueSorted_insertAllPure (fun f => valueSorted_functionV2Obj f)
  cases i <;> cases hr : r.isEmpty <;>
    simp only [contractV2Obj, hr, if_true, Bool.false_eq_true, if_false] <;>
    (repeat' apply valueSorted_obj_insert) <;>
    first
    | exact valueSorted_obj_nil
    | exact valueSorted_functionV2Obj _
    | exact hent

theorem valueSorted_contractV3Obj (c : ContractV3) :
    ValueSorted (.obj (contractV3Obj c)) := by
  obtain ⟨i, ev, r⟩ := c
  have hent : ValueSorted
      (.obj (insertAllPure (fun f => Value.obj (functionV2Obj f)) r [])) :=
    valueSorted_insertAllPure (fun f => valueSorted_functionV2Obj f)
  cases i <;> cases ev <;> cases hr : r.isEmpty <;>
    simp only [contractV3Obj, hr, if_true, Bool.false_eq_true, if_false] <;>
    (repeat' apply valueSorted_obj_insert) <;>
    first
    | exact valueSorted_obj_nil
    | exact valueSorted_serialize _
    | exact valueSorted_functionV2Obj _
    | exact hent

/-! ## Claim C1 -/

/-- C1: for every input byte sequence that does not start with the magic
bytes 0xFF 0xFF (a legacy, untagged stream), `parse_schema` fails with
`MissingVersionHint` when the generation hint is absent; with hint V0 it
decodes the bytes as a V0 module body (wrapping any successful decode in
the V0 generation), and with hint V1 as a V1 module body. -/
theorem parse_schema_legacy_dispatch (bytes : List Nat)
    (hmagic : starts_with bytes VERSIONED_SCHEMA_MAGIC_HASH = false) :
    parse_schema none bytes = .error .MissingVersionHint ∧
    parse_schema (some .V0) bytes =
      Except.map VersionedModuleSchema.V0 (from_bytes_module_v0 bytes) ∧
    parse_schema (some .V1) bytes =
      Except.map VersionedModuleSchema.V1 (from_bytes_module_v1 bytes) ∧
    (∀ m, parse_schema (some .V0) bytes = .ok m → ∃ s0, m = .V0 s0) ∧
    (∀ m, parse_schema (some .V1) bytes = .ok m → ∃ s1, m = .V1 s1) := by
  have h0 : parse_schema (some .V0) bytes =
      Except.map VersionedModuleSchema.V0 (from_bytes_module_v0 bytes) := by
    simp [parse_schema, hmagic]
  have h1 : parse_schema (some .V1) bytes =
      Except.map VersionedModuleSchema.V1 (from_bytes_module_v1 bytes) := by
    simp [parse_schema, hmagic]
  refine ⟨by simp [parse_schema, hmagic], h0, h1, ?_, ?_⟩
  · intro m hm
    rw [h0] at hm
    cases hfb : from_bytes_module_v0 bytes with
    | ok s0 =>
      rw [hfb] at hm
      refine ⟨s0, ?_⟩
      simpa [Except.map] using hm.symm
    | error e => rw [hfb] at hm; simp [Except.map] at hm
  · intro m hm
    rw [h1] at hm
    cases hfb : from_bytes_module_v1 bytes with
    | ok s1 =>
      rw [hfb] at hm
      refine ⟨s1, ?_⟩
      simpa [Except.map] using hm.symm
    | error e => rw [hfb] at hm; simp [Except.map] at hm

/-- Witness for C1 at the concrete legacy stream `[0, 0, 0, 0]` (an
empty contract map): no hint fails with the missing-hint error, hint V0
yields an (empty) V0 module, hint V1 an (empty) V1 module. -/
theorem parse_schema_legacy_dispatch_witness :
    starts_with [0, 0, 0, 0] VERSIONED_SCHEMA_MAGIC_HASH = false ∧
    parse_schema none [0, 0, 0, 0] = .error .MissingVersionHint ∧
    parse_schema (some .V0) [0, 0, 0, 0] = .ok (.V0 ⟨[]⟩) ∧
    parse_schema (some .V1) [0, 0, 0, 0] = .ok (.V1 ⟨[]⟩) :=
  have h := parse_schema_legacy_dispatch [0, 0, 0, 0] rfl
  ⟨rfl, h.1, h.2.1.trans rfl, h.2.2.1.trans rfl⟩

/-! ## Claim C2 -/

/-- C2: for every input byte sequence starting with the magic bytes
0xFF 0xFF, `parse_schema` decodes it as a version-tagged stream, and the
generation hint has no effect: the result equals the hintless result. -/
theorem parse_schema_versioned_ignores_hint (hint : Option WasmVersion)
    (bytes : List Nat)
    (hmagic : starts_with bytes VERSIONED_SCHEMA_MAGIC_HASH = true) :
    parse_schema hint bytes = from_bytes_versioned bytes ∧
    parse_schema hint bytes = parse_schema none bytes := by
  constructor <;> simp [parse_schema, hmagic]

/-- Witness for C2 at the concrete version-tagged stream
`[255, 255, 1, 0, 0, 0, 0]` (magic, generation tag 1, empty contract
map): even with hint V0 the stream decodes as a V1 module, identically
to the hintless call. -/
theorem parse_schema_versioned_ignores_hint_witness :
    starts_with [255, 255, 1, 0, 0, 0, 0] VERSIONED_SCHEMA_MAGIC_HASH = true ∧
    parse_schema (some .V0) [255, 255, 1, 0, 0, 0, 0] =
      parse_schema none [255, 255, 1, 0, 0, 0, 0] ∧
    parse_schema (some .V0) [255, 255, 1, 0, 0, 0, 0] = .ok (.V1 ⟨[]⟩) :=
  ⟨rfl, (parse_schema_versioned_ignores_hint (some .V0)
      [255, 255, 1, 0, 0, 0, 0] rfl).2,
    ((parse_schema_versioned_ignores_hint (some .V0)
      [255, 255, 1, 0, 0, 0, 0] rfl).1).trans rfl⟩

/-! ## Claim C7 -/

/-- C7: the JSON projection of a `Type` tree is total — for every value
of the (fully enumerated) type grammar, `type_to_json` returns a JSON
value and never an error. -/
theorem type_to_json_total (t : SchemaType) : ∃ v, type_to_json t = .ok v :=
  ⟨serialize_SerializableType t, rfl⟩

/-! ## Claim C3 (evidence of the code bug)

The `Serialize` impl projects every composite variant to a bare
placeholder string (for example `Pair` to the string value
`"pair..."`), not to an object carrying the discriminant and the
variant's structural parameters; the impl's own TODO comment records the
intended object form. -/

/-- C3: at the concrete composite input `Pair(Unit, Unit)` the code
produces the placeholder JSON string `"pair..."`, which is not a JSON
object of any shape. -/
theorem type_to_json_pair_is_placeholder_string :
    type_to_json (.Pair .Unit .Unit) = .ok (.str "pair...") ∧
    ∀ l, Value.str "pair..." ≠ Value.obj l :=
  ⟨rfl, fun _ h => Value.noConfusion h⟩

/-! ## Claim C4 -/

/-- The concrete scenario of the claim: a V0 module with one contract
"counter", init type `Unit`, no state schema, and one receive
entrypoint "increment" of type `Unit`. -/
def counterModule : VersionedModuleSchema :=
  .V0 ⟨[("counter", ⟨some .Unit, none, [("increment", .Unit)]⟩)]⟩

/-- What the code actually produces for `counterModule`: primitive types
render as bare discriminant strings. -/
def counterActualJson : Value :=
  .obj [("counter", .obj [("entrypoints", .obj [("increment", .str "unit")]),
    ("init", .str "unit")])]

/-- What the claim asserts for `counterModule`: primitive types render
as objects with a kind discriminant. -/
def counterClaimedJson : Value :=
  .obj [("counter", .obj [("init", .obj [("kind", .str "unit")]),
    ("entrypoints", .obj [("increment", .obj [("kind", .str "unit")])])])]

/-- JSON object field access. -/
def jsonGet (v : Value) (k : String) : Option Value :=
  match v with
  | .obj l => lookupKey k l
  | _ => none

/-- C4 counterexample: the projection of the counter module is not the
claimed JSON — the "init" member is the bare string "unit", not the
object carrying a kind discriminant. -/
theorem counter_module_projection_counterexample :
    schema_to_json counterModule = .ok counterActualJson ∧
    schema_to_json counterModule ≠ .ok counterClaimedJson ∧
    Option.bind (jsonGet counterActualJson "counter")
      (fun c => jsonGet c "init") = some (.str "unit") ∧
    Value.str "unit" ≠ Value.obj [("kind", .str "unit")] := by
  refine ⟨rfl, ?_, rfl, fun h => Value.noConfusion h⟩
  intro h
  rw [show schema_to_json counterModule = .ok counterActualJson from rfl] at h
  simp only [Except.ok.injEq, counterActualJson, counterClaimedJson] at h
  simp at h

/-- C4 amended: the counter module projects to exactly
`counterActualJson` — the object with single key "counter" whose value
has exactly the keys "entrypoints" and "init" (no "state" key), with
"init" mapped to the string "unit" and "entrypoints" to the object
mapping "increment" to the string "unit". -/
theorem counter_module_projection_amended :
    schema_to_json counterModule = .ok counterActualJson ∧
    jsonGet counterActualJson "counter" =
      some (.obj [("entrypoints", .obj [("increment", .str "unit")]),
        ("init", .str "unit")]) ∧
    Option.bind (jsonGet counterActualJson "counter")
      (fun c => jsonGet c "state") = none ∧
    Option.bind (jsonGet counterActualJson "counter")
      (fun c => jsonGet c "init") = some (.str "unit") ∧
    Option.bind (Option.bind (jsonGet counterActualJson "counter")
      (fun c => jsonGet c "entrypoints"))
      (fun e => jsonGet e "increment") = some (.str "unit") :=
  ⟨rfl, rfl, rfl, rfl, rfl⟩

/-! ## Claim C5 -/

/-- C5: the JSON produced by `schema_to_json` lists contract names in
sorted lexicographic order, and every object anywhere inside the result
— in particular each contract's "entrypoints" object — lists its keys in
sorted lexicographic order, independent of wire order (the entry lists
of the input schema are not assumed sorted). -/
theorem schema_to_json_sorted (s : VersionedModuleSchema) (v : Value)
    (h : schema_to_json s = .ok v) :
    (∃ entries, v = .obj entries ∧ SortedKeys entries) ∧ ValueSorted v := by
  cases s with
  | V0 m =>
    rw [schema_to_json_V0_eq] at h
    cases Except.ok.inj h
    exact ⟨⟨_, rfl, sortedKeys_insertAllPure (by simp [SortedKeys])⟩,
      valueSorted_insertAllPure (fun c => valueSorted_contractV0Obj c)⟩
  | V1 m =>
    rw [schema_to_json_V1_eq] at h
    cases Except.ok.inj h
    exact ⟨⟨_, rfl, sortedKeys_insertAllPure (by simp [SortedKeys])⟩,
      valueSorted_insertAllPure (fun c => valueSorted_contractV1Obj c)⟩
  | V2 m =>
    rw [schema_to_json_V2_eq] at h
    cases Except.ok.inj h
    exact ⟨⟨_, rfl, sortedKeys_insertAllPure (by simp [SortedKeys])⟩,
      valueSorted_insertAllPure (fun c => valueSorted_contractV2Obj c)⟩
  | V3 m =>
    rw [schema_to_json_V3_eq] at h
    cases Except.ok.inj h
    exact ⟨⟨_, rfl, sortedKeys_insertAllPure (by simp [SortedKeys])⟩,
      valueSorted_insertAllPure (fun c => valueSorted_contractV3Obj c)⟩

/-- A module whose contract map and entrypoint maps arrive in reversed
(unsorted) wire order. -/
def sortWitnessModule : VersionedModuleSchema :=
  .V1 ⟨[("zeta", ⟨none, [("b", ⟨some .Unit, none⟩), ("a", ⟨none, some .Bool⟩)]⟩),
        ("alpha", ⟨some ⟨none, none⟩, []⟩)]⟩

/-- The projection of `sortWitnessModule`: contract names and entrypoint
names come out in sorted order. -/
def sortWitnessJson : Value :=
  .obj [("alpha", .obj [("init", .obj [])]),
        ("zeta", .obj [("entrypoints", .obj [
          ("a", .obj [("returnValue", .str "bool")]),
          ("b", .obj [("parameter", .str "unit")])])])]

/-- Witness for C5 at `sortWitnessModule`. -/
theorem schema_to_json_sorted_witness :
    schema_to_json sortWitnessModule = .ok sortWitnessJson ∧
    ValueSorted sortWitnessJson :=
  ⟨rfl, (schema_to_json_sorted sortWitnessModule sortWitnessJson rfl).2⟩

/-! ## Claim C9 -/

/-- C9: for every generation, a contract whose receive-entrypoint map is
empty projects to an object with no "entrypoints" key at all. -/
theorem no_entrypoints_key_when_receive_empty :
    (∀ c : ContractV0, c.receive = [] →
      ∃ l, schema_to_json_v0 c = .ok (.obj l) ∧ "entrypoints" ∉ keys l) ∧
    (∀ c : ContractV1, c.receive = [] →
      ∃ l, schema_to_json_v1 c = .ok (.obj l) ∧ "entrypoints" ∉ keys l) ∧
    (∀ c : ContractV2, c.receive = [] →
      ∃ l, schema_to_json_v2 c = .ok (.obj l) ∧ "entrypoints" ∉ keys l) ∧
    (∀ c : ContractV3, c.receive = [] →
      ∃ l, schema_to_json_v3 c = .ok (.obj l) ∧ "entrypoints" ∉ keys l) := by
  refine ⟨?_, ?_, ?_, ?_⟩
  · intro c hrec
    obtain ⟨i, s, r⟩ := c
    cases hrec
    refine ⟨_, schema_to_json_v0_eq _, ?_⟩
    cases i with
    | none =>
      cases s with
      | none => show "entrypoints" ∉ ([] : List String); decide
      | some b => show "entrypoints" ∉ ["state"]; decide
    | some a =>
      cases s with
      | none => show "entrypoints" ∉ ["init"]; decide
      | some b => show "entrypoints" ∉ ["init", "state"]; decide
  · intro c hrec
    obtain ⟨i, r⟩ := c
    cases hrec
    refine ⟨_, schema_to_json_v1_eq _, ?_⟩
    cases i with
    | none => show "entrypoints" ∉ ([] : List String); decide
    | some f => show "entrypoints" ∉ ["init"]; decide
  · intro c hrec
    obtain ⟨i, r⟩ := c
    cases hrec
    refine ⟨_, schema_to_json_v2_eq _, ?_⟩
    cases i with
    | none => show "entrypoints" ∉ ([] : List String); decide
    | some f => show "entrypoints" ∉ ["init"]; decide
  · intro c hrec
    obtain ⟨i, ev, r⟩ := c
    cases hrec
    refine ⟨_, schema_to_json_v3_eq _, ?_⟩
    cases i with
    | none =>
      cases ev with
      | none => show "entrypoints" ∉ ([] : List String); decide
      | some b => show "entrypoints" ∉ ["event"]; decide
    | some f =>
      cases ev with
      | none => show "entrypoints" ∉ ["init"]; decide
      | some b => show "entrypoints" ∉ ["event", "init"]; decide

/-- Witness for C9 at concrete contracts of all four generations with
empty receive maps. -/
theorem no_entrypoints_key_when_receive_empty_witness :
    (∃ l, schema_to_json_v0 ⟨some .Unit, some .Bool, []⟩ = .ok (.obj l) ∧
      "entrypoints" ∉ keys l) ∧
    (∃ l, schema_to_json_v1 ⟨some ⟨some .Unit, none⟩, []⟩ = .ok (.obj l) ∧
      "entrypoints" ∉ keys l) ∧
    (∃ l, schema_to_json_v2 ⟨some ⟨none, none, some .U8⟩, []⟩ = .ok (.obj l) ∧
      "entrypoints" ∉ keys l) ∧
    (∃ l, schema_to_json_v3 ⟨none, some .U8, []⟩ = .ok (.obj l) ∧
      "entrypoints" ∉ keys l) :=
  ⟨no_entrypoints_key_when_receive_empty.1 _ rfl,
   no_entrypoints_key_when_receive_empty.2.1 _ rfl,
   no_entrypoints_key_when_receive_empty.2.2.1 _ rfl,
   no_entrypoints_key_when_receive_empty.2.2.2 _ rfl⟩

/-! ## Claim C10 -/

/-- C10: for V1, V2 and V3 contracts whose init function schema is
present but has every optional field absent, the projected contract
object still contains the "init" key, mapped to the empty JSON
object. -/
theorem empty_init_projects_to_empty_object :
    (∀ c : ContractV1, c.init = some ⟨none, none⟩ →
      ∃ l, schema_to_json_v1 c = .ok (.obj l) ∧
        lookupKey "init" l = some (.obj [])) ∧
    (∀ c : ContractV2, c.init = some ⟨none, none, none⟩ →
      ∃ l, schema_to_json_v2 c = .ok (.obj l) ∧
        lookupKey "init" l = some (.obj [])) ∧
    (∀ c : ContractV3, c.init = some ⟨none, none, none⟩ →
      ∃ l, schema_to_json_v3 c = .ok (.obj l) ∧
        lookupKey "init" l = some (.obj [])) := by
  refine ⟨?_, ?_, ?_⟩
  · intro c hinit
    obtain ⟨i, r⟩ := c
    cases hinit
    refine ⟨_, schema_to_json_v1_eq _, ?_⟩
    cases hr : r.isEmpty <;>
      simp [contractV1Obj, hr, functionV1Obj, lookupKey, btreeInsert]
  · intro c hinit
    obtain ⟨i, r⟩ := c
    cases hinit
    refine ⟨_, schema_to_json_v2_eq _, ?_⟩
    cases hr : r.isEmpty <;>
      simp [contractV2Obj, hr, functionV2Obj, lookupKey, btreeInsert]
  · intro c hinit
    obtain ⟨i, ev, r⟩ := c
    cases hinit
    refine ⟨_, schema_to_json_v3_eq _, ?_⟩
    cases ev <;> cases hr : r.isEmpty <;>
      simp [contractV3Obj, hr, functionV2Obj, lookupKey, btreeInsert]

/-- Witness for C10 at concrete V1, V2 and V3 contracts whose init is
present with all optional fields absent. -/
theorem empty_init_projects_to_empty_object_witness :
    (∃ l, schema_to_json_v1 ⟨some ⟨none, none⟩, [("go", ⟨some .Unit, none⟩)]⟩ =
      .ok (.obj l) ∧ lookupKey "init" l = some (.obj [])) ∧
    (∃ l, schema_to_json_v2 ⟨some ⟨none, none, none⟩, []⟩ =
      .ok (.obj l) ∧ lookupKey "init" l = some (.obj [])) ∧
    (∃ l, schema_to_json_v3 ⟨some ⟨none, none, none⟩, some .U8, []⟩ =
      .ok (.obj l) ∧ lookupKey "init" l = some (.obj [])) :=
  ⟨empty_init_projects_to_empty_object.1 _ rfl,
   empty_init_projects_to_empty_object.2.1 _ rfl,
   empty_init_projects_to_empty_object.2.2 _ rfl⟩

/-! ## Claim C6 -/

/-- C6: a projected V1 function object contains "parameter" iff the
parameter field is present and "returnValue" iff the return-value field
is present, and no other keys; a projected V2/V3 function object
additionally contains "error" iff the error field is present, and no
other keys. -/
theorem function_schema_optional_keys :
    (∀ s : FunctionV1, ∃ l, function_v1_schema s = .ok (.obj l) ∧
      (("parameter" ∈ keys l) ↔ s.parameter.isSome = true) ∧
      (("returnValue" ∈ keys l) ↔ s.return_value.isSome = true) ∧
      (∀ k, k ∈ keys l → k = "parameter" ∨ k = "returnValue")) ∧
    (∀ s : FunctionV2, ∃ l, function_v2_schema s = .ok (.obj l) ∧
      (("parameter" ∈ keys l) ↔ s.parameter.isSome = true) ∧
      (("returnValue" ∈ keys l) ↔ s.return_value.isSome = true) ∧
      (("error" ∈ keys l) ↔ s.error.isSome = true) ∧
      (∀ k, k ∈ keys l → k = "parameter" ∨ k = "returnValue" ∨ k = "error")) := by
  have h1 : keyLt "returnValue" "parameter" = false := rfl
  have h2 : ("returnValue" == "parameter") = false := rfl
  have h3 : keyLt "error" "parameter" = true := rfl
  have h4 : keyLt "error" "returnValue" = true := rfl
  constructor
  · intro s
    obtain ⟨p, r⟩ := s
    cases p <;> cases r <;>
      refine ⟨_, function_v1_schema_eq _, ?_, ?_, ?_⟩ <;>
      simp [functionV1Obj, btreeInsert, h1, h2, keys] <;>
      tauto
  · intro s
    obtain ⟨p, r, e⟩ := s
    cases p <;> cases r <;> cases e <;>
      refine ⟨_, function_v2_schema_eq _, ?_, ?_, ?_, ?_⟩ <;>
      simp [functionV2Obj, btreeInsert, h1, h2, h3, h4, keys] <;>
      tauto

/-- Witness for C6 at a concrete V1 function schema (parameter present,
return value absent) and a concrete V2 function schema (parameter
absent, return value and error present). -/
theorem function_schema_optional_keys_witness :
    (∃ l, function_v1_schema ⟨some .Unit, none⟩ = .ok (.obj l) ∧
      (("parameter" ∈ keys l) ↔ (some SchemaType.Unit).isSome = true) ∧
      (("returnValue" ∈ keys l) ↔ (none : Option SchemaType).isSome = true) ∧
      (∀ k, k ∈ keys l → k = "parameter" ∨ k = "returnValue")) ∧
    (∃ l, function_v2_schema ⟨none, some .Bool, some .U8⟩ = .ok (.obj l) ∧
      (("parameter" ∈ keys l) ↔ (none : Option SchemaType).isSome = true) ∧
      (("returnValue" ∈ keys l) ↔ (some SchemaType.Bool).isSome = true) ∧
      (("error" ∈ keys l) ↔ (some SchemaType.U8).isSome = true) ∧
      (∀ k, k ∈ keys l → k = "parameter" ∨ k = "returnValue" ∨ k = "error")) :=
  ⟨function_schema_optional_keys.1 ⟨some .Unit, none⟩,
   function_schema_optional_keys.2 ⟨none, some .Bool, some .U8⟩⟩

/-! ## Claim C8 -/

/-- C8: decoding and projection fail closed.  An error at any entry of a
value map makes the whole `try_map_values` an error and a successful
`try_map_values` implies every entry succeeded (no partial map exists);
a failed module-body decode makes the whole `parse_schema` call that
error; a failed versioned decode makes `parse_schema` that error for
every hint; and a failed contract projection makes the whole
`schema_to_json` call that error, for every generation. -/
theorem decode_project_fail_closed :
    (∀ (V W : Type) (f : V → Except Err W) (m : List (String × V))
       (k : String) (v : V) (e : Err), (k, v) ∈ m → f v = .error e →
       ∃ e2, try_map_values m f = .error e2) ∧
    (∀ (V W : Type) (f : V → Except Err W) (m : List (String × V))
       (out : List (String × W)), try_map_values m f = .ok out →
       ∀ k v, (k, v) ∈ m → ∃ w, f v = .ok w) ∧
    (∀ (bytes : List Nat) (e : Err),
       starts_with bytes VERSIONED_SCHEMA_MAGIC_HASH = false →
       (from_bytes_module_v0 bytes = .error e →
         parse_schema (some .V0) bytes = .error e) ∧
       (from_bytes_module_v1 bytes = .error e →
         parse_schema (some .V1) bytes = .error e)) ∧
    (∀ (bytes : List Nat) (e : Err),
       starts_with bytes VERSIONED_SCHEMA_MAGIC_HASH = true →
       from_bytes_versioned bytes = .error e →
       ∀ hint, parse_schema hint bytes = .error e) ∧
    (∀ (m : ModuleV0) (e : Err),
       try_map_values m.contracts schema_to_json_v0 = .error e →
       schema_to_json (.V0 m) = .error e) ∧
    (∀ (m : ModuleV1) (e : Err),
       try_map_values m.contracts schema_to_json_v1 = .error e →
       schema_to_json (.V1 m) = .error e) ∧
    (∀ (m : ModuleV2) (e : Err),
       try_map_values m.contracts schema_to_json_v2 = .error e →
       schema_to_json (.V2 m) = .error e) ∧
    (∀ (m : ModuleV3) (e : Err),
       try_map_values m.contracts schema_to_json_v3 = .error e →
       schema_to_json (.V3 m) = .error e) := by
  refine ⟨?_, ?_, ?_, ?_, ?_, ?_, ?_, ?_⟩
  · intro V W f m k v e hmem hfv
    exact try_map_values_aux_error hmem hfv
  · intro V W f m out hok k v hmem
    exact try_map_values_aux_ok hok k v hmem
  · intro bytes e hmagic
    constructor <;> intro herr <;>
      simp [parse_schema, hmagic, herr, Except.map]
  · intro bytes e hmagic herr hint
    cases hint with
    | none => simp [parse_schema, hmagic, herr]
    | some wv => cases wv <;> simp [parse_schema, hmagic, herr]
  · intro m e herr
    simp [schema_to_json, herr, except_bind_error]
  · intro m e herr
    simp [schema_to_json, herr, except_bind_error]
  · intro m e herr
    simp [schema_to_json, herr, except_bind_error]
  · intro m e herr
    simp [schema_to_json, herr, except_bind_error]

/-- Witness for C8: a map entry whose transformer fails makes
`try_map_values` fail; a truncated legacy stream under hint V0 fails
with the decode error; a version-tagged stream with an unknown
generation tag fails with the same malformed-schema error through
`parse_schema`. -/
theorem decode_project_fail_closed_witness :
    (∃ e2, try_map_values [("a", 0)]
      (fun _ : Nat => (.error .InternalError : Except Err Nat)) = .error e2) ∧
    parse_schema (some .V0) [7] = .error .UnexpectedEndOfInput ∧
    parse_schema none [255, 255, 9] =
      .error (.MalformedSchema "unrecognized schema generation tag") :=
  ⟨decode_project_fail_closed.1 Nat Nat _ [("a", 0)] "a" 0 .InternalError
      (by simp) rfl,
   (decode_project_fail_closed.2.2.1 [7] .UnexpectedEndOfInput rfl).1 rfl,
   decode_project_fail_closed.2.2.2.1 [255, 255, 9]
      (.MalformedSchema "unrecognized schema generation tag") rfl rfl none⟩

end SchemaDecoder
